import Mathlib

set_option maxRecDepth 1000000

/-!
Verification development for the `ai-comment-assistant` repository.

The subject program is `.github/scripts/aicomment.js`, a single-shot
pipeline: it reads a triggering issue comment, parses an optional model
alias and a prompt, rebuilds the conversation history from the issue's
comments, calls a chat-completion backend, and posts the answer back as
an issue comment.

The JavaScript is embedded shallowly: strings are Lean `String`
(a list of characters; the program only manipulates ASCII-relevant
text), JavaScript string primitives (`trim`, `substring`, `split`,
`join`, `toLowerCase`, `startsWith`, `includes`) are modelled as
executable functions on the character list, the model-alias JSON object
is an association list, and the external collaborators (GitHub comment
store, model backend) are oracles passed in as explicit arguments.
Network effects are recorded as explicit effect lists.
-/

/-- Word characters of the JavaScript regex class `[\w-]`:
ASCII letters, digits, underscore, and the hyphen. -/
def isWordChar (c : Char) : Bool :=
  c.isAlphanum || c == '_' || c == '-'

/-- Model of JavaScript `String.prototype.trim`: drop leading and
trailing whitespace (the program only deals in ASCII whitespace). -/
def jsTrim (s : String) : String :=
  String.mk (((s.data.dropWhile Char.isWhitespace).reverse.dropWhile Char.isWhitespace).reverse)

/-- Model of JavaScript `String.prototype.startsWith`. -/
def jsStartsWith (s pat : String) : Bool :=
  List.isPrefixOf pat.data s.data

/-- Model of JavaScript `String.prototype.substring(start)`:
the characters from index `start` to the end. -/
def jsSubstring (s : String) (start : Nat) : String :=
  String.mk (s.data.drop start)

/-- Model of JavaScript `String.prototype.toLowerCase` (ASCII range). -/
def jsToLower (s : String) : String :=
  String.mk (s.data.map Char.toLower)

/-- Helper for `strContains`: does `needle` occur starting at some
position of the second list? -/
def strContainsAux (needle : List Char) : List Char → Bool
  | [] => List.isPrefixOf needle []
  | c :: rest => List.isPrefixOf needle (c :: rest) || strContainsAux needle rest

/-- Model of JavaScript `String.prototype.includes`. -/
def strContains (hay needle : String) : Bool :=
  strContainsAux needle.data hay.data

/-- Maximal runs of non-whitespace characters, in order. The
accumulator holds the unfinished current run. -/
def wsTokensAux : List Char → List Char → List (List Char)
  | [], acc => if acc.isEmpty then [] else [acc]
  | c :: rest, acc =>
    if c.isWhitespace then
      (if acc.isEmpty then [] else [acc]) ++ wsTokensAux rest []
    else
      wsTokensAux rest (acc ++ [c])

/-- Maximal runs of non-whitespace characters of a character list. -/
def wsTokens (cs : List Char) : List (List Char) :=
  wsTokensAux cs []

/-- Model of JavaScript `String.prototype.split(/\s+/)`: the pieces
between maximal whitespace runs; an empty leading (trailing) piece
appears when the string starts (ends) with whitespace, and splitting
the empty string yields `[""]`. -/
def jsSplitWs (s : String) : List String :=
  match s.data with
  | [] => [""]
  | c :: rest =>
    (if c.isWhitespace then [""] else [])
      ++ (wsTokens (c :: rest)).map String.mk
      ++ (if ((c :: rest).getLastD c).isWhitespace then [""] else [])

/-- Model of JavaScript `Array.prototype.join(sep)`. -/
def jsJoin (sep : String) : List String → String
  | [] => ""
  | [x] => x
  | x :: xs => x ++ sep ++ jsJoin sep xs

/-- Property lookup on the parsed `model-map.json` object, modelled as
an association list in key insertion order. -/
def lookupJs (modelMap : List (String × String)) (key : String) : Option String :=
  (modelMap.find? (fun p => p.1 == key)).map (fun p => p.2)

/-- JavaScript truthiness of a possibly-absent string property:
`undefined` and the empty string are falsy. -/
def jsTruthy : Option String → Bool
  | some v => v != ""
  | none => false

/-- Raw issue comment as returned by the comment store: `body`,
`user.login`, and `created_at`. -/
structure RawComment where
  body : String
  author : String
  timestamp : String
deriving DecidableEq

/-- Conversation entry produced by `getIssueContext`'s classification
(the object literal with keys `role`, `author`, `timestamp`,
`content`). The program uses the role strings "user", "user_prompt"
and "assistant". -/
structure ConvEntry where
  role : String
  author : String
  timestamp : String
  content : String
deriving DecidableEq

/-- The hidden completion marker appended to assistant comments. -/
def aiMarker : String := "<!-- AI_RESPONSE -->"

/-- Model of `.replace(/^@[\w-]+\s*\n*/, '')`: remove a leading
"@<word>" mention together with all whitespace that follows it; leave
the string unchanged when the anchored pattern does not match. -/
def stripMention (s : String) : String :=
  match s.data with
  | '@' :: rest =>
    if (rest.takeWhile isWordChar).isEmpty then s
    else String.mk ((rest.dropWhile isWordChar).dropWhile Char.isWhitespace)
  | _ => s

/-- Model of `.replace(/\n*<!-- AI_RESPONSE -->\s*$/, '')`: when the
string ends with the hidden marker (allowing trailing whitespace after
it), remove the marker, the whitespace after it, and the newlines
immediately before it; otherwise leave the string unchanged. -/
def stripAiMarker (s : String) : String :=
  let rev := s.data.reverse.dropWhile Char.isWhitespace
  if List.isPrefixOf aiMarker.data.reverse rev then
    String.mk ((rev.drop aiMarker.data.length).dropWhile (fun c => c == '\n')).reverse
  else s

/-- Classification of one raw comment, from the `comments.map` callback
in `getIssueContext`: a comment whose trimmed body starts with "/ai "
becomes a `user_prompt` whose content is `body.substring(4).trim()`;
otherwise a comment containing the hidden marker becomes an
`assistant` entry with the mention and marker stripped; otherwise the
comment stays a plain `user` entry with the full body. -/
def classifyComment (c : RawComment) : ConvEntry :=
  let isUserPrompt := jsStartsWith (jsTrim c.body) "/ai "
  let isAIResponse := strContains c.body aiMarker
  if isUserPrompt then
    { role := "user_prompt", author := c.author, timestamp := c.timestamp,
      content := jsTrim (jsSubstring c.body 4) }
  else if isAIResponse then
    { role := "assistant", author := c.author, timestamp := c.timestamp,
      content := jsTrim (stripAiMarker (stripMention c.body)) }
  else
    { role := "user", author := c.author, timestamp := c.timestamp,
      content := c.body }

/-- Four lowercase hexadecimal digits, as produced by
`JSON.stringify` for control characters. -/
def hex4 (n : Nat) : String :=
  String.mk [Nat.digitChar (n / 4096 % 16), Nat.digitChar (n / 256 % 16),
             Nat.digitChar (n / 16 % 16), Nat.digitChar (n % 16)]

/-- Escaping of one character inside a `JSON.stringify` string. -/
def jsonEscapeChar (c : Char) : String :=
  if c == '"' then "\\\""
  else if c == '\\' then "\\\\"
  else if c == '\n' then "\\n"
  else if c == '\r' then "\\r"
  else if c == '\t' then "\\t"
  else if c == '\x08' then "\\b"
  else if c == '\x0c' then "\\f"
  else if c.toNat < 32 then "\\u" ++ hex4 c.toNat
  else String.mk [c]

/-- A `JSON.stringify` string literal. -/
def jsonEscape (s : String) : String :=
  "\"" ++ String.join (s.data.map jsonEscapeChar) ++ "\""

/-- One conversation entry as serialized by
`JSON.stringify(conversationHistory, null, 2)`: a two-space indented
object with the keys in literal order `role`, `author`, `timestamp`,
`content`. -/
def serializeEntry (e : ConvEntry) : String :=
  "  \x7b\n    \"role\": " ++ jsonEscape e.role
    ++ ",\n    \"author\": " ++ jsonEscape e.author
    ++ ",\n    \"timestamp\": " ++ jsonEscape e.timestamp
    ++ ",\n    \"content\": " ++ jsonEscape e.content
    ++ "\n  \x7d"

/-- A nonempty entry list as serialized by
`JSON.stringify(conversationHistory, null, 2)`. -/
def serializeHistory (entries : List ConvEntry) : String :=
  "[\n" ++ jsJoin ",\n" (entries.map serializeEntry) ++ "\n]"

/-- The `commentsText` value built by `getIssueContext`: empty when the
issue has no comments, else the serialized classified history. -/
def commentsText (comments : List RawComment) : String :=
  if comments.isEmpty then ""
  else serializeHistory (comments.map classifyComment)

/-- The `issueBody` value of `getIssueContext`:
`issue.body || "This issue has no description."`, where both a missing
body and an empty body are falsy. -/
def resolveIssueBody (issueBody : Option String) : String :=
  match issueBody with
  | some b => if b != "" then b else "This issue has no description."
  | none => "This issue has no description."

/-- The system message assembled by `getAiResponse` (before the final
`.trim()` applied at the message-building site); the empty comments
string is replaced by `"[]"` via `issueContext.comments || "[]"`. -/
def systemMessage (systemPrompt title issueBody comments : String) : String :=
  systemPrompt
    ++ "\n\n--- Issue Context ---\nTitle: " ++ title
    ++ "\nBody: " ++ issueBody
    ++ "\n\n--- Conversation History ---\nThe following is a JSON array of the conversation history on this issue:\n- \"role\": \"user\" = regular user comment\n- \"role\": \"user_prompt\" = user's AI prompt (started with /ai)\n- \"role\": \"assistant\" = your previous AI responses\n\n"
    ++ (if comments != "" then comments else "[]")
    ++ "\n--- End Context ---"

/-- Outcome of one backend chat-completion call, supplied as an oracle:
either the completion text or the backend error message. -/
inductive BackendResult where
  | ok (content : String)
  | err (message : String)
deriving DecidableEq

/-- Model of `getAiResponse`'s result: the completion content on
success; on an unexpected response it throws
`new Error("AI API call failed: " + response.body.error.message)`. -/
def getAiResponse (response : BackendResult) : Except String String :=
  match response with
  | BackendResult.ok content => Except.ok content
  | BackendResult.err message => Except.error ("AI API call failed: " ++ message)

/-- Comment-store write calls made by the program: an
`issues.updateComment` call on an existing comment id, or an
`issues.createComment` call. -/
inductive PublishEffect where
  | updated (commentId : Nat) (body : String)
  | created (body : String)
deriving DecidableEq

/-- Model of `postCommentToIssue(body, processingCommentId)`: when the
id is truthy (present and nonzero) the comment is updated in place and
the function returns; if that update call throws, or when the id is
absent or falsy, a new comment is created. The returned list records
the comment-store calls made, in order; `updateSucceeds` is the oracle
for the outcome of the update call. -/
def postCommentToIssue (body : String) (processingCommentId : Option Nat)
    (updateSucceeds : Bool) : List PublishEffect :=
  match processingCommentId with
  | some cid =>
    if cid != 0 then
      if updateSucceeds then [PublishEffect.updated cid body]
      else [PublishEffect.updated cid body, PublishEffect.created body]
    else [PublishEffect.created body]
  | none => [PublishEffect.created body]

/-- A JavaScript error value as observed by the top-level `catch`
handler: its `message`, and its `status` property when the error came
from the GitHub client. -/
structure JsError where
  message : String
  status : Option Nat
deriving DecidableEq

/-- The caution-formatted body posted by the top-level handler. -/
def cautionBody (message : String) : String :=
  "> [!CAUTION]\n> Sorry, I encountered an error and could not process your request:\n> `"
    ++ message ++ "`"

/-- Observable outcome of the top-level `main().catch` handler. -/
structure HandlerOutcome where
  posts : List PublishEffect
  postFailureLogged : Bool
  exitCode : Nat
deriving DecidableEq

/-- Model of the `main().catch` handler: a 404 error only logs a hint
and posts nothing; any other error leads to one attempt to create a
caution comment (no placeholder id is passed), whose own failure is
only logged; either way the process exits with status 1.
`createSucceeds` is the oracle for the notification attempt. -/
def mainCatchHandler (err : JsError) (createSucceeds : Bool) : HandlerOutcome :=
  if err.status == some 404 then
    { posts := [], postFailureLogged := false, exitCode := 1 }
  else
    { posts := [PublishEffect.created (cautionBody err.message)],
      postFailureLogged := !createSucceeds, exitCode := 1 }

/-- The error value that a failed generation call throws: it carries
the backend's message and, being a plain `Error`, has no `status`. -/
def generationFailure (message : String) : JsError :=
  { message := "AI API call failed: " ++ message, status := none }

/-- The parse result computed inline in `main`: the chosen alias, the
resolved identifier (checked for truthiness before use), and the
prompt text. -/
structure Parsed where
  modelAlias : String
  modelIdentifier : Option String
  prompt : String
deriving DecidableEq

/-- The alias/prompt split from `main`: the first whitespace-separated
token of the command, lowercased, is looked up in the model map; on a
truthy hit it becomes the alias and the remaining tokens joined by
single spaces become the prompt, otherwise the whole command text is
the prompt under the "default" entry. -/
def parseCommand (modelMap : List (String × String)) (commandContent : String) : Parsed :=
  let parts := jsSplitWs commandContent
  let potentialAlias := jsToLower (parts.headD "")
  if jsTruthy (lookupJs modelMap potentialAlias) then
    { modelAlias := potentialAlias,
      modelIdentifier := lookupJs modelMap potentialAlias,
      prompt := jsJoin " " (parts.drop 1) }
  else
    { modelAlias := "default",
      modelIdentifier := lookupJs modelMap "default",
      prompt := commandContent }

/-- The backtick-quoted alias listing built in `main`: all map keys
except "default", joined. -/
def availableAliases (modelMap : List (String × String)) : String :=
  "`" ++ jsJoin "`, `" ((modelMap.map (fun p => p.1)).filter (fun k => k != "default")) ++ "`"

/-- The comment body posted when no usable model identifier exists. -/
def noModelMsg (modelMap : List (String × String)) : String :=
  "I could not find a model to use. Please specify one or ensure a \"default\" is configured.\n\nAvailable models: "
    ++ availableAliases modelMap

/-- The usage-help body posted when the prompt is empty. -/
def usageMsg (modelMap : List (String × String)) : String :=
  "It looks like you used the `/ai` command without a question. Please provide a prompt.\n\n**Usage:**\n* `/ai <your prompt>` (uses default model)\n* `/ai <model> <your prompt>`\n\n**Available models:** "
    ++ availableAliases modelMap

/-- The `commentAuthor` value: `process.env["COMMENT_AUTHOR"] || "User"`. -/
def resolveAuthor (commentAuthor : Option String) : String :=
  match commentAuthor with
  | some a => if a != "" then a else "User"
  | none => "User"

/-- Invocation inputs of one run, as read from the environment by the
configuration block and by `main`. -/
structure Env where
  commentBody : String
  modelMap : List (String × String)
  commentAuthor : Option String
  processingCommentId : Option Nat
deriving DecidableEq

/-- Observable outcome of one invocation: how many backend calls were
made, the comment-store calls of the normal path, the comment-store
calls and logging of the error handler, and the process exit code. -/
structure RunOutcome where
  backendCalls : Nat
  effects : List PublishEffect
  errorPosts : List PublishEffect
  errorPostFailureLogged : Bool
  exitCode : Nat
deriving DecidableEq

/-- Model of `main` together with its `catch` handler. The comment
text is trimmed; a text not starting with "/ai " is skipped. The
command after the marker is parsed; a falsy model identifier or an
empty prompt leads to a single informational comment and a normal
exit. Otherwise the backend is called exactly once: on success the
tagged response is published (preferring the placeholder comment), on
failure the thrown generation error reaches the catch handler. -/
def runMain (env : Env) (backend : BackendResult)
    (updateSucceeds createSucceeds : Bool) : RunOutcome :=
  let commentText := jsTrim env.commentBody
  if jsStartsWith commentText "/ai " then
    let commandContent := jsTrim (jsSubstring commentText 4)
    let parsed := parseCommand env.modelMap commandContent
    if jsTruthy parsed.modelIdentifier then
      if parsed.prompt != "" then
        match getAiResponse backend with
        | Except.ok content =>
          let author := resolveAuthor env.commentAuthor
          let responseWithTag := "@" ++ author ++ "\n\n" ++ content ++ "\n\n" ++ aiMarker
          { backendCalls := 1,
            effects := postCommentToIssue responseWithTag env.processingCommentId updateSucceeds,
            errorPosts := [], errorPostFailureLogged := false, exitCode := 0 }
        | Except.error message =>
          let handled := mainCatchHandler { message := message, status := none } createSucceeds
          { backendCalls := 1, effects := [],
            errorPosts := handled.posts,
            errorPostFailureLogged := handled.postFailureLogged,
            exitCode := handled.exitCode }
      else
        { backendCalls := 0,
          effects := postCommentToIssue (usageMsg env.modelMap) none updateSucceeds,
          errorPosts := [], errorPostFailureLogged := false, exitCode := 0 }
    else
      { backendCalls := 0,
        effects := postCommentToIssue (noModelMsg env.modelMap) none updateSucceeds,
        errorPosts := [], errorPostFailureLogged := false, exitCode := 0 }
  else
    { backendCalls := 0, effects := [], errorPosts := [],
      errorPostFailureLogged := false, exitCode := 0 }

/-- Specification-side predicate for collapsed whitespace: every
whitespace character of the list is a plain space, and no two
whitespace characters are adjacent. -/
def collapsedWs : List Char → Bool
  | [] => true
  | [c] => !c.isWhitespace || c == ' '
  | c :: d :: rest =>
    ((!c.isWhitespace || c == ' ') && !(c.isWhitespace && d.isWhitespace))
      && collapsedWs (d :: rest)

/-- Specification-side predicate: the string has no leading and no
trailing whitespace character, as is true of every command text the
parser receives (it is produced by a trim). -/
def noWsAtEnds (s : String) : Bool :=
  (match s.data.head? with
   | some c => !c.isWhitespace
   | none => true)
  && (match s.data.getLast? with
      | some c => !c.isWhitespace
      | none => true)

/-! Helper lemmas about the JavaScript string primitives. -/

theorem isPrefixOf_append_self (l t : List Char) : List.isPrefixOf l (l ++ t) = true := by
  induction l with
  | nil => simp [List.isPrefixOf]
  | cons a as ih => simp [List.isPrefixOf, ih]

theorem dropWhile_ws_eq_self (l : List Char)
    (h : ∀ c ∈ l, c.isWhitespace = false) :
    l.dropWhile Char.isWhitespace = l := by
  cases l with
  | nil => rfl
  | cons a t => simp [List.dropWhile_cons, h a (List.mem_cons_self a t)]

theorem jsTrim_of_no_ws (s : String) (h : ∀ c ∈ s.data, c.isWhitespace = false) :
    jsTrim s = s := by
  unfold jsTrim
  rw [dropWhile_ws_eq_self _ h,
      dropWhile_ws_eq_self _ (fun c hc => h c (List.mem_reverse.mp hc)),
      List.reverse_reverse]

theorem jsStartsWith_marker (t : String) : jsStartsWith ("/ai " ++ t) "/ai " = true := by
  unfold jsStartsWith
  rw [String.data_append]
  exact isPrefixOf_append_self _ _

theorem jsSubstring_marker (t : String) : jsSubstring ("/ai " ++ t) 4 = t := by
  unfold jsSubstring
  rw [String.data_append]
  rfl

theorem wsTokensAux_no_ws_run (cs : List Char) :
    ∀ acc, (∀ c ∈ cs, c.isWhitespace = false) → acc ++ cs ≠ [] →
      wsTokensAux cs acc = [acc ++ cs] := by
  induction cs with
  | nil =>
    intro acc _ hne
    rw [List.append_nil] at hne
    simp [wsTokensAux, List.isEmpty_iff, hne]
  | cons c rest ih =>
    intro acc h _
    have hc : c.isWhitespace = false := h c (List.mem_cons_self c rest)
    have hrest : ∀ d ∈ rest, d.isWhitespace = false :=
      fun d hd => h d (List.mem_cons_of_mem c hd)
    simp only [wsTokensAux, hc, Bool.false_eq_true, if_false]
    rw [ih (acc ++ [c]) hrest (by simp)]
    simp

theorem wsTokensAux_wf (cs : List Char) :
    ∀ acc, (∀ c ∈ acc, c.isWhitespace = false) →
      ∀ t ∈ wsTokensAux cs acc, t ≠ [] ∧ ∀ c ∈ t, c.isWhitespace = false := by
  induction cs with
  | nil =>
    intro acc hacc t ht
    unfold wsTokensAux at ht
    by_cases he : acc.isEmpty
    · simp [he] at ht
    · simp [he] at ht
      subst ht
      exact ⟨by simpa [List.isEmpty_iff] using he, hacc⟩
  | cons c rest ih =>
    intro acc hacc t ht
    unfold wsTokensAux at ht
    by_cases hc : c.isWhitespace
    · simp only [hc, if_true] at ht
      rcases List.mem_append.mp ht with h1 | h2
      · by_cases he : acc.isEmpty
        · simp [he] at h1
        · simp [he] at h1
          subst h1
          exact ⟨by simpa [List.isEmpty_iff] using he, hacc⟩
      · exact ih [] (by simp) t h2
    · simp only [hc, if_false] at ht
      refine ih (acc ++ [c]) ?_ t ht
      intro d hd
      rcases List.mem_append.mp hd with h1 | h2
      · exact hacc d h1
      · simp at h2
        subst h2
        simpa using hc

theorem jsSplitWs_single (s : String) (hne : s.data ≠ [])
    (h : ∀ c ∈ s.data, c.isWhitespace = false) : jsSplitWs s = [s] := by
  cases s with
  | mk data =>
    cases data with
    | nil => exact absurd rfl hne
    | cons c rest =>
      have hc : c.isWhitespace = false := h c (List.mem_cons_self c rest)
      have hlast : ((c :: rest).getLastD c).isWhitespace = false :=
        h _ (by rw [List.getLastD_cons]; exact List.getLastD_mem_cons rest c)
      show (if c.isWhitespace then [""] else [])
          ++ (wsTokens (c :: rest)).map String.mk
          ++ (if ((c :: rest).getLastD c).isWhitespace then [""] else []) = _
      rw [hc, hlast, wsTokens, wsTokensAux_no_ws_run (c :: rest) [] h (by simp)]
      simp

theorem collapsedWs_cons_of_not_ws (c : Char) (l : List Char)
    (hc : c.isWhitespace = false) (hl : collapsedWs l = true) :
    collapsedWs (c :: l) = true := by
  cases l with
  | nil => simp [collapsedWs, hc]
  | cons d t => simp [collapsedWs, hc]; exact hl

theorem collapsedWs_of_no_ws (l : List Char) (h : ∀ c ∈ l, c.isWhitespace = false) :
    collapsedWs l = true := by
  induction l with
  | nil => rfl
  | cons c t ih =>
    exact collapsedWs_cons_of_not_ws c t (h c (List.mem_cons_self c t))
      (ih fun d hd => h d (List.mem_cons_of_mem c hd))

theorem collapsedWs_space_cons (b : List Char) (hb : collapsedWs b = true)
    (hbh : ∀ d, b.head? = some d → d.isWhitespace = false) :
    collapsedWs (' ' :: b) = true := by
  cases b with
  | nil => decide
  | cons d t =>
    have hd : d.isWhitespace = false := hbh d rfl
    simp [collapsedWs, hd]
    exact hb

theorem collapsedWs_sep (a : List Char) (b : List Char)
    (ha : ∀ c ∈ a, c.isWhitespace = false) (hb : collapsedWs b = true)
    (hbh : ∀ d, b.head? = some d → d.isWhitespace = false) :
    collapsedWs (a ++ ' ' :: b) = true := by
  induction a with
  | nil => exact collapsedWs_space_cons b hb hbh
  | cons c a2 ih =>
    exact collapsedWs_cons_of_not_ws c (a2 ++ ' ' :: b)
      (ha c (List.mem_cons_self c a2))
      (ih fun d hd => ha d (List.mem_cons_of_mem c hd))

theorem jsJoin_space_head (y : String) (rest : List String) (hy : y.data ≠ []) :
    (jsJoin " " (y :: rest)).data.head? = y.data.head? := by
  cases rest with
  | nil => rfl
  | cons z zs =>
    show (y ++ " " ++ jsJoin " " (z :: zs)).data.head? = y.data.head?
    rw [String.data_append, String.data_append]
    cases hdata : y.data with
    | nil => exact absurd hdata hy
    | cons c t => simp

theorem collapsedWs_join (ts : List String)
    (h : ∀ t ∈ ts, t.data ≠ [] ∧ ∀ c ∈ t.data, c.isWhitespace = false) :
    collapsedWs (jsJoin " " ts).data = true := by
  induction ts with
  | nil => rfl
  | cons x xs ih =>
    cases xs with
    | nil =>
      exact collapsedWs_of_no_ws x.data (h x (List.mem_cons_self x [])).2
    | cons y ys =>
      have hx := h x (List.mem_cons_self x (y :: ys))
      have hrest : ∀ t ∈ y :: ys, t.data ≠ [] ∧ ∀ c ∈ t.data, c.isWhitespace = false :=
        fun t ht => h t (List.mem_cons_of_mem x ht)
      have hy := hrest y (List.mem_cons_self y ys)
      show collapsedWs (x ++ " " ++ jsJoin " " (y :: ys)).data = true
      rw [String.data_append, String.data_append]
      have : (" " : String).data = [' '] := rfl
      rw [this, List.append_assoc]
      refine collapsedWs_sep x.data (jsJoin " " (y :: ys)).data hx.2 (ih hrest) ?_
      intro d hd
      rw [jsJoin_space_head y ys hy.1] at hd
      exact hy.2 d (List.mem_of_mem_head? hd)

/-! Claim theorems. -/

/-- C2: evidence that the classifier mis-strips the trigger marker.
On the body "  /ai hi" (two leading spaces) the trimmed text starts
with "/ai ", so the comment is classified `user_prompt`, but the
content is computed as `body.substring(4).trim()` on the untrimmed
body, yielding "i hi" instead of "hi" — the code removes the first
four raw characters rather than the marker it just matched, contrary
to its own inline comment (`Remove '/ai ' prefix`) and to the spec's
"content = text with the marker removed". -/
theorem user_prompt_content_mis_stripped :
    classifyComment { body := "  /ai hi", author := "u", timestamp := "t0" }
      = { role := "user_prompt", author := "u", timestamp := "t0", content := "i hi" }
    ∧ ("i hi" : String) ≠ "hi" := by
  exact ⟨by decide, by decide⟩

/-- C9: a fetched issue whose body is absent (null) or the empty
string is given the literal placeholder "This issue has no
description.", and that placeholder is what reaches the system
message. -/
theorem missing_issue_body_placeholder :
    resolveIssueBody none = "This issue has no description."
    ∧ resolveIssueBody (some "") = "This issue has no description."
    ∧ (∀ sp title comments : String,
        systemMessage sp title (resolveIssueBody none) comments
          = systemMessage sp title "This issue has no description." comments
        ∧ systemMessage sp title (resolveIssueBody (some "")) comments
          = systemMessage sp title "This issue has no description." comments) :=
  ⟨rfl, rfl, fun _ _ _ => ⟨rfl, rfl⟩⟩

/-- C4: the conversation-history serialization is a deterministic
function of the ordered raw-comment list — the classification and
`JSON.stringify` embedding is pure, so two runs over byte-identical
comment lists produce byte-identical serialized strings. -/
theorem history_serialization_deterministic (cs cs2 : List RawComment)
    (h : cs = cs2) : commentsText cs = commentsText cs2 := by
  rw [h]

/-- C4 witness: the determinism theorem applied to a concrete
one-comment thread. -/
theorem history_serialization_deterministic_witness :
    commentsText [{ body := "hello", author := "alice", timestamp := "2024-01-01T00:00:00Z" }]
      = commentsText [{ body := "hello", author := "alice", timestamp := "2024-01-01T00:00:00Z" }] :=
  history_serialization_deterministic _ _ rfl

/-- C5 counterexample: a placeholder comment id of 0 is supplied and
the update would succeed, yet the publisher never calls update and
creates a brand-new comment instead — `if (processingCommentId)`
treats the id 0 as absent (JavaScript falsiness). -/
theorem zero_placeholder_id_creates_new :
    postCommentToIssue "body" (some 0) true = [PublishEffect.created "body"] := by
  decide

/-- C5 (amended): for a nonzero supplied placeholder id, a successful
update modifies only that existing comment and creates nothing; a
failed update falls back to creating a brand-new comment with the
same body; with no supplied id — or with the falsy id 0 — a new
comment is created directly. -/
theorem publish_update_or_create (body : String) (cid : Nat) (upd : Bool) :
    (cid ≠ 0 → postCommentToIssue body (some cid) true = [PublishEffect.updated cid body])
    ∧ (cid ≠ 0 → postCommentToIssue body (some cid) false
        = [PublishEffect.updated cid body, PublishEffect.created body])
    ∧ postCommentToIssue body none upd = [PublishEffect.created body]
    ∧ postCommentToIssue body (some 0) upd = [PublishEffect.created body] := by
  refine ⟨?_, ?_, rfl, rfl⟩ <;>
    · intro h
      simp [postCommentToIssue, h]

/-- C5 witness: the amended publish theorem applied at the concrete
nonzero id 5. -/
theorem publish_update_or_create_witness :
    postCommentToIssue "b" (some 5) true = [PublishEffect.updated 5 "b"]
    ∧ postCommentToIssue "b" (some 5) false
        = [PublishEffect.updated 5 "b", PublishEffect.created "b"] :=
  ⟨(publish_update_or_create "b" 5 true).1 (by decide),
   (publish_update_or_create "b" 5 false).2.1 (by decide)⟩

/-- C8 counterexample: with the alias table keys `gpt` and `default`,
the command "GPT a  b" has first token "GPT", which matches the known
alias `gpt` case-insensitively; the parser yields modelAlias "gpt"
(the lowercased token, not the token itself) and prompt "a b" (the
re-joined tokens, not the verbatim remainder "a  b"), so the claim as
stated fails at this input. -/
theorem uppercase_alias_counterexample :
    parseCommand [("gpt", "openai/gpt-4o"), ("default", "openai/gpt-4o")] "GPT a  b"
      = { modelAlias := "gpt", modelIdentifier := some "openai/gpt-4o", prompt := "a b" }
    ∧ ("gpt" : String) ≠ "GPT"
    ∧ ("a b" : String) ≠ "a  b" := by
  exact ⟨by decide, by decide, by decide⟩

/-- C8 (amended): when the lowercase form of the command's first
whitespace-separated token is mapped to a non-empty identifier in the
alias table, that lowercased token becomes the modelAlias and the
remaining tokens joined by single spaces become the prompt; otherwise
the whole command text is the prompt and the modelAlias is
"default", resolved through the "default" entry. -/
theorem alias_parse_branches (modelMap : List (String × String)) (commandContent : String) :
    (jsTruthy (lookupJs modelMap (jsToLower ((jsSplitWs commandContent).headD ""))) = true →
      parseCommand modelMap commandContent
        = { modelAlias := jsToLower ((jsSplitWs commandContent).headD ""),
            modelIdentifier :=
              lookupJs modelMap (jsToLower ((jsSplitWs commandContent).headD "")),
            prompt := jsJoin " " ((jsSplitWs commandContent).drop 1) })
    ∧ (jsTruthy (lookupJs modelMap (jsToLower ((jsSplitWs commandContent).headD ""))) = false →
      parseCommand modelMap commandContent
        = { modelAlias := "default", modelIdentifier := lookupJs modelMap "default",
            prompt := commandContent }) := by
  constructor <;>
    · intro h
      simp only [parseCommand]
      rw [h]
      simp

/-- C8 witness: the amended parsing theorem applied to the concrete
command "gpt hi" under a table mapping `gpt`. -/
theorem alias_parse_branches_witness :
    parseCommand [("gpt", "m"), ("default", "d")] "gpt hi"
      = { modelAlias := jsToLower ((jsSplitWs "gpt hi").headD ""),
          modelIdentifier :=
            lookupJs [("gpt", "m"), ("default", "d")] (jsToLower ((jsSplitWs "gpt hi").headD "")),
          prompt := jsJoin " " ((jsSplitWs "gpt hi").drop 1) } :=
  (alias_parse_branches [("gpt", "m"), ("default", "d")] "gpt hi").1 (by decide)

/-- C6: when the backend reports an error, the generation call fails
with an error carrying the backend's message ("AI API call failed:
<message>"); the backend is called exactly once (no retry) and the
failure propagates to the top-level handler, which attempts one new
caution-formatted comment carrying that message (no placeholder id is
passed, so it is a created comment) and exits with status 1; for the
backend message "rate limited" the posted body contains the literal
string "rate limited". -/
theorem backend_error_propagates (env : Env) (m : String) (upd cr : Bool)
    (h1 : jsStartsWith (jsTrim env.commentBody) "/ai " = true)
    (h2 : jsTruthy (parseCommand env.modelMap
        (jsTrim (jsSubstring (jsTrim env.commentBody) 4))).modelIdentifier = true)
    (h3 : ((parseCommand env.modelMap
        (jsTrim (jsSubstring (jsTrim env.commentBody) 4))).prompt != "") = true) :
    getAiResponse (BackendResult.err m) = Except.error ("AI API call failed: " ++ m)
    ∧ runMain env (BackendResult.err m) upd cr
      = { backendCalls := 1, effects := [],
            errorPosts := [PublishEffect.created (cautionBody ("AI API call failed: " ++ m))],
            errorPostFailureLogged := !cr, exitCode := 1 }
    ∧ (m = "rate limited" →
        strContains (cautionBody ("AI API call failed: " ++ m)) "rate limited" = true) := by
  refine ⟨rfl, ?_, ?_⟩
  · simp only [runMain]
    rw [h1, h2, h3]
    simp [getAiResponse, mainCatchHandler]
  · intro hm
    subst hm
    decide

/-- C6 witness: the propagation theorem applied to the concrete
trigger "/ai hi" with backend message "rate limited". -/
theorem backend_error_propagates_witness :
    runMain
      { commentBody := "/ai hi", modelMap := [("default", "openai/gpt-4o")],
          commentAuthor := none, processingCommentId := none }
      (BackendResult.err "rate limited") true true
      = { backendCalls := 1, effects := [],
            errorPosts :=
              [PublishEffect.created (cautionBody ("AI API call failed: " ++ "rate limited"))],
            errorPostFailureLogged := !true, exitCode := 1 }
    ∧ strContains (cautionBody ("AI API call failed: " ++ "rate limited")) "rate limited" = true :=
  ⟨(backend_error_propagates
      { commentBody := "/ai hi", modelMap := [("default", "openai/gpt-4o")],
          commentAuthor := none, processingCommentId := none }
      "rate limited" true true (by decide) (by decide) (by decide)).2.1,
   (backend_error_propagates
      { commentBody := "/ai hi", modelMap := [("default", "openai/gpt-4o")],
          commentAuthor := none, processingCommentId := none }
      "rate limited" true true (by decide) (by decide) (by decide)).2.2 rfl⟩

/-- C7: a generation failure is a plain `Error` carrying no HTTP
status, so the top-level handler always makes exactly one attempt to
post a generic caution comment for it before the process exits with
status 1; when that notification attempt itself fails, the failure is
only logged and the attempt is not retried (the post list still has
exactly one element). -/
theorem generation_failure_notifies_once (m : String) (createSucceeds : Bool) :
    (mainCatchHandler (generationFailure m) createSucceeds).posts
      = [PublishEffect.created (cautionBody ("AI API call failed: " ++ m))]
    ∧ (mainCatchHandler (generationFailure m) createSucceeds).exitCode = 1
    ∧ (createSucceeds = false →
        (mainCatchHandler (generationFailure m) createSucceeds).postFailureLogged = true
        ∧ (mainCatchHandler (generationFailure m) createSucceeds).posts.length = 1) := by
  refine ⟨rfl, rfl, ?_⟩
  intro h
  subst h
  exact ⟨rfl, rfl⟩

/-- C7 witness: the notification theorem applied to the concrete
backend message "boom" with a failing notification attempt. -/
theorem generation_failure_notifies_once_witness :
    (mainCatchHandler (generationFailure "boom") false).postFailureLogged = true
    ∧ (mainCatchHandler (generationFailure "boom") false).posts.length = 1 :=
  (generation_failure_notifies_once "boom" false).2.2 rfl

/-- C1 counterexample: a trigger comment whose trimmed text is exactly
the marker "/ai" makes no backend call, but it also does not produce a
usage-help message — the pipeline requires the marker followed by a
space and skips the comment outright, posting nothing at all. -/
theorem bare_trigger_posts_nothing :
    runMain
      { commentBody := "/ai", modelMap := [("default", "openai/gpt-4o")],
          commentAuthor := none, processingCommentId := none }
      (BackendResult.ok "x") true true
      = { backendCalls := 0, effects := [], errorPosts := [],
            errorPostFailureLogged := false, exitCode := 0 } := by
  decide

/-- C1 (amended): a trigger comment whose trimmed text is exactly the
marker "/ai" is skipped before parsing — the pipeline makes no
backend call and posts nothing at all, in particular no usage-help
message, because the trigger check requires the marker followed by a
space ("/ai "). This holds for every alias table, backend behaviour
and publish oracle. -/
theorem bare_marker_comment_skipped (env : Env) (backend : BackendResult) (upd cr : Bool)
    (h : jsTrim env.commentBody = "/ai") :
    runMain env backend upd cr
      = { backendCalls := 0, effects := [], errorPosts := [],
            errorPostFailureLogged := false, exitCode := 0 } := by
  have h1 : jsStartsWith (jsTrim env.commentBody) "/ai " = false := by
    rw [h]; decide
  simp only [runMain]
  rw [h1]
  simp

/-- C3: a command whose first token (lowercased, as the parser looks
it up) is not a key of the alias table is parsed with modelAlias
"default", the whole command text as the prompt, and the identifier
resolved through the "default" entry; when the "default" entry is
also absent, the invocation posts a single comment listing the
available aliases and ends without any backend call. -/
theorem unknown_alias_defaults (env : Env) (commandContent : String)
    (h : lookupJs env.modelMap (jsToLower ((jsSplitWs commandContent).headD "")) = none) :
    parseCommand env.modelMap commandContent
      = { modelAlias := "default", modelIdentifier := lookupJs env.modelMap "default",
            prompt := commandContent }
    ∧ (∀ (backend : BackendResult) (upd cr : Bool),
        jsTrim env.commentBody = "/ai " ++ commandContent →
        jsTrim commandContent = commandContent →
        lookupJs env.modelMap "default" = none →
        runMain env backend upd cr
          = { backendCalls := 0,
                effects := [PublishEffect.created (noModelMsg env.modelMap)],
                errorPosts := [], errorPostFailureLogged := false, exitCode := 0 }) := by
  have hfalse : jsTruthy (lookupJs env.modelMap
      (jsToLower ((jsSplitWs commandContent).headD ""))) = false := by
    rw [h]; rfl
  have hparse : parseCommand env.modelMap commandContent
      = { modelAlias := "default", modelIdentifier := lookupJs env.modelMap "default",
            prompt := commandContent } := by
    simp only [parseCommand]
    rw [hfalse]
    simp
  refine ⟨hparse, ?_⟩
  intro backend upd cr hb htrim hdef
  have h1 : jsStartsWith (jsTrim env.commentBody) "/ai " = true := by
    rw [hb]; exact jsStartsWith_marker commandContent
  have h2 : jsTrim (jsSubstring (jsTrim env.commentBody) 4) = commandContent := by
    rw [hb, jsSubstring_marker]; exact htrim
  simp only [runMain]
  rw [h1, h2, hparse]
  simp only [hdef]
  simp [postCommentToIssue, jsTruthy]

/-- C3 witness: the default-fallback theorem applied to the trigger
"/ai foo hi" under a table with a `claude` entry and no `default`. -/
theorem unknown_alias_defaults_witness :
    parseCommand [("claude", "anthropic/claude-3.5-sonnet")] "foo hi"
      = { modelAlias := "default",
            modelIdentifier := lookupJs [("claude", "anthropic/claude-3.5-sonnet")] "default",
            prompt := "foo hi" }
    ∧ runMain
        { commentBody := "/ai foo hi", modelMap := [("claude", "anthropic/claude-3.5-sonnet")],
            commentAuthor := none, processingCommentId := none }
        (BackendResult.ok "x") true true
        = { backendCalls := 0,
              effects :=
                [PublishEffect.created (noModelMsg [("claude", "anthropic/claude-3.5-sonnet")])],
              errorPosts := [], errorPostFailureLogged := false, exitCode := 0 } :=
  ⟨(unknown_alias_defaults
      { commentBody := "/ai foo hi", modelMap := [("claude", "anthropic/claude-3.5-sonnet")],
          commentAuthor := none, processingCommentId := none }
      "foo hi" (by decide)).1,
   (unknown_alias_defaults
      { commentBody := "/ai foo hi", modelMap := [("claude", "anthropic/claude-3.5-sonnet")],
          commentAuthor := none, processingCommentId := none }
      "foo hi" (by decide)).2 (BackendResult.ok "x") true true (by decide) (by decide) (by decide)⟩

/-- C1 witness: the skip theorem applied to the concrete comment
" /ai " (which trims to the bare marker) with a live alias table and
a backend that would answer. -/
theorem bare_marker_comment_skipped_witness :
    runMain
      { commentBody := " /ai ", modelMap := [("gpt", "m"), ("default", "d")],
          commentAuthor := none, processingCommentId := none }
      (BackendResult.ok "x") true true
      = { backendCalls := 0, effects := [], errorPosts := [],
            errorPostFailureLogged := false, exitCode := 0 } :=
  bare_marker_comment_skipped
    { commentBody := " /ai ", modelMap := [("gpt", "m"), ("default", "d")],
        commentAuthor := none, processingCommentId := none }
    (BackendResult.ok "x") true true (by decide)

/-- C10: when an explicit alias is recognized, the prompt is the
re-join of the whitespace-split tokens after the alias, so every
whitespace run of the original command text (newlines included)
appears in the prompt as a single space; when no alias is recognized
the prompt is the command text verbatim, internal whitespace intact.
The hypothesis records that the command text carries no leading or
trailing whitespace, which holds on every path since `main` trims it. -/
theorem alias_prompt_whitespace_collapse (modelMap : List (String × String))
    (commandContent : String) (hends : noWsAtEnds commandContent = true) :
    (jsTruthy (lookupJs modelMap (jsToLower ((jsSplitWs commandContent).headD ""))) = true →
      (parseCommand modelMap commandContent).prompt
        = jsJoin " " ((jsSplitWs commandContent).drop 1)
      ∧ collapsedWs (parseCommand modelMap commandContent).prompt.data = true)
    ∧ (jsTruthy (lookupJs modelMap (jsToLower ((jsSplitWs commandContent).headD ""))) = false →
      (parseCommand modelMap commandContent).prompt = commandContent) := by
  have hcoll : collapsedWs (jsJoin " " ((jsSplitWs commandContent).drop 1)).data = true := by
    cases commandContent with
    | mk data =>
      cases data with
      | nil => decide
      | cons c rest =>
        simp only [noWsAtEnds, List.head?_cons] at hends
        rw [Bool.and_eq_true] at hends
        obtain ⟨hc0, hlast0⟩ := hends
        have hc : c.isWhitespace = false := by simpa using hc0
        have hlastD : ((c :: rest).getLastD c).isWhitespace = false := by
          cases hgl : (c :: rest).getLast? with
          | none =>
            rw [List.getLastD_eq_getLast?, hgl]
            simpa using hc
          | some x =>
            rw [List.getLastD_eq_getLast?, hgl]
            rw [hgl] at hlast0
            simpa using hlast0
        have hsplit : jsSplitWs (String.mk (c :: rest))
            = (wsTokens (c :: rest)).map String.mk := by
          show (if c.isWhitespace then [""] else [])
              ++ (wsTokens (c :: rest)).map String.mk
              ++ (if ((c :: rest).getLastD c).isWhitespace then [""] else []) = _
          rw [hc, hlastD]
          simp
        refine collapsedWs_join _ ?_
        intro t ht
        rw [hsplit] at ht
        have ht2 : t ∈ (wsTokens (c :: rest)).map String.mk :=
          List.drop_subset 1 _ ht
        obtain ⟨tok, htok, rfl⟩ := List.mem_map.mp ht2
        have hwf := wsTokensAux_wf (c :: rest) [] (by simp) tok htok
        exact ⟨by simpa using hwf.1, by simpa using hwf.2⟩
  refine ⟨fun h => ?_, fun h => ?_⟩
  · have hp : (parseCommand modelMap commandContent).prompt
        = jsJoin " " ((jsSplitWs commandContent).drop 1) := by
      simp only [parseCommand]
      rw [h]
      simp
    exact ⟨hp, by rw [hp]; exact hcoll⟩
  · simp only [parseCommand]
    rw [h]
    simp

/-- C10 witness: the whitespace-collapse theorem applied to the
concrete command "gpt a\nb  c" under a table mapping `gpt`; the
resulting prompt "a b c" is collapsed. -/
theorem alias_prompt_whitespace_collapse_witness :
    (parseCommand [("gpt", "m"), ("default", "d")] "gpt a\nb  c").prompt
      = jsJoin " " ((jsSplitWs "gpt a\nb  c").drop 1)
    ∧ collapsedWs (parseCommand [("gpt", "m"), ("default", "d")] "gpt a\nb  c").prompt.data
      = true :=
  (alias_prompt_whitespace_collapse [("gpt", "m"), ("default", "d")] "gpt a\nb  c"
    (by decide)).1 (by decide)
